import Mathlib

/-!
Verification of the bonbon JSON/BONJSON converter.

Bytes are modelled as natural numbers (the Go code only ever compares them
against constants below 256).  Byte buffers are lists of naturals.  The pure
format-detection functions are translated directly from the source; the
conversion orchestrators are translated with the external codec (go-bonjson,
encoding/json) abstracted as a record of functions, and with file/stream I/O
replaced by an explicit record of the bytes written to each destination.
-/

namespace Bonbon

/-- isWhitespace returns true if b is a JSON whitespace character. -/
def isWhitespace (b : Nat) : Bool :=
  b == 32 || b == 9 || b == 10 || b == 13

/-- isDigit returns true if b is an ASCII digit. -/
def isDigit (b : Nat) : Bool :=
  48 ≤ b && b ≤ 57

/-- isValidJSONStart returns true if b can be the first non-whitespace byte of
a JSON document (the Go switch lists the braces, bracket, quote, the letters
t/f/n, minus, and the ten digits). -/
def isValidJSONStart (b : Nat) : Bool :=
  b == 123 || b == 91 || b == 34 || b == 116 || b == 102 || b == 110 || b == 45 ||
  b == 48 || b == 49 || b == 50 || b == 51 || b == 52 || b == 53 || b == 54 ||
  b == 55 || b == 56 || b == 57

/-- isJSONNumberOrDocContinuation returns true if b could follow a digit in
JSON: more digits, decimal point, exponent, whitespace, or structural
characters. -/
def isJSONNumberOrDocContinuation (b : Nat) : Bool :=
  b == 48 || b == 49 || b == 50 || b == 51 || b == 52 || b == 53 || b == 54 ||
  b == 55 || b == 56 || b == 57 ||
  b == 46 ||
  b == 101 || b == 69 ||
  b == 32 || b == 9 || b == 10 || b == 13 ||
  b == 44 || b == 93 || b == 125

/-- Loop body of skipWhitespace: walk the suffix of the buffer starting at
index i, advancing i past whitespace bytes. -/
def skipWhitespaceAux : List Nat → Nat → Nat
  | [], i => i
  | b :: t, i => if isWhitespace b then skipWhitespaceAux t (i + 1) else i

/-- skipWhitespace returns the index of the first non-whitespace byte at or
after start. -/
def skipWhitespace (data : List Nat) (start : Nat) : Nat :=
  skipWhitespaceAux (data.drop start) start

/-- looksLikeJSONObject checks if remaining bytes (after the opening brace)
look like a JSON object: optional whitespace then a quote (key) or a closing
brace (empty object). -/
def looksLikeJSONObject (remaining : List Nat) : Bool :=
  let i := skipWhitespace remaining 0
  if i < remaining.length then
    remaining.getD i 0 == 34 || remaining.getD i 0 == 125
  else false

/-- looksLikeJSONArray checks if remaining bytes (after the opening bracket)
look like a JSON array: optional whitespace then a value start or a closing
bracket (empty array). -/
def looksLikeJSONArray (remaining : List Nat) : Bool :=
  let i := skipWhitespace remaining 0
  if i < remaining.length then
    isValidJSONStart (remaining.getD i 0) || remaining.getD i 0 == 93
  else false

/-- detectJSON determines if the data appears to be JSON (true) or BONJSON
(false), translated from the Go source: skip leading whitespace; 0x99/0x9a are
unambiguously BONJSON; 0x66 is unambiguously JSON; invalid JSON start bytes
are BONJSON; otherwise disambiguate on the following bytes. -/
def detectJSON (data : List Nat) : Bool :=
  let start := skipWhitespace data 0
  if start < data.length then
    let first := data.getD start 0
    if first == 153 || first == 154 then false
    else if first == 102 then true
    else if !isValidJSONStart first then false
    else
      let remaining := data.drop (start + 1)
      if first == 116 then
        decide (3 ≤ remaining.length) && remaining.getD 0 0 == 114 &&
          remaining.getD 1 0 == 117 && remaining.getD 2 0 == 101
      else if first == 110 then
        decide (3 ≤ remaining.length) && remaining.getD 0 0 == 117 &&
          remaining.getD 1 0 == 108 && remaining.getD 2 0 == 108
      else if first == 123 then looksLikeJSONObject remaining
      else if first == 91 then looksLikeJSONArray remaining
      else if first == 34 then decide (0 < remaining.length)
      else if first == 45 then
        decide (0 < remaining.length) && isDigit (remaining.getD 0 0)
      else if isDigit first then
        if remaining.length == 0 then false
        else isJSONNumberOrDocContinuation (remaining.getD 0 0)
      else true
  else true

/-- Helper used in characterizing the literal checks of the detector: does the
list begin with the three given bytes. -/
def startsWith3 (l : List Nat) (a b c : Nat) : Bool :=
  match l with
  | x :: y :: z :: _ => x == a && y == b && z == c
  | _ => false

/-- List-structured form of looksLikeJSONObject. -/
def looksLikeJSONObjectL (remaining : List Nat) : Bool :=
  match remaining.dropWhile isWhitespace with
  | [] => false
  | b :: _ => b == 34 || b == 125

/-- List-structured form of looksLikeJSONArray. -/
def looksLikeJSONArrayL (remaining : List Nat) : Bool :=
  match remaining.dropWhile isWhitespace with
  | [] => false
  | b :: _ => isValidJSONStart b || b == 93

/-- Is the head of the list a decimal digit (false on the empty list)? -/
def headIsDigit : List Nat → Bool
  | [] => false
  | b :: _ => isDigit b

/-- Is the head of the list a number/document continuation byte (false on the
empty list)? -/
def headIsCont : List Nat → Bool
  | [] => false
  | b :: _ => isJSONNumberOrDocContinuation b

/-- The detector's decision on the buffer after stripping leading whitespace,
as a structural match.  Proved equal to detectJSON after dropWhile below. -/
def detectStripped : List Nat → Bool
  | [] => true
  | first :: remaining =>
    if first == 153 || first == 154 then false
    else if first == 102 then true
    else if !isValidJSONStart first then false
    else if first == 116 then startsWith3 remaining 114 117 101
    else if first == 110 then startsWith3 remaining 117 108 108
    else if first == 123 then looksLikeJSONObjectL remaining
    else if first == 91 then looksLikeJSONArrayL remaining
    else if first == 34 then !remaining.isEmpty
    else if first == 45 then headIsDigit remaining
    else if isDigit first then headIsCont remaining
    else true

/-! ### The conversion orchestrators

The external codec (go-bonjson and encoding/json) is abstracted as a record of
functions over an opaque value type; file and stream I/O is replaced by an
explicit record of the bytes written to each destination.  The bonbon
command-line variant and the auto-detecting variant are both modelled. -/

/-- Structured decode errors reported by the BONJSON codec: the trailing-data
condition is distinguished (the CLI can suppress it); every other error kind
is collapsed into a code. -/
inductive BonErr where
  | trailingData (offset : Nat)
  | other (code : Nat)
deriving DecidableEq

/-- Does errors.As recognize the error as a TrailingDataError? -/
def BonErr.isTrailing : BonErr → Bool
  | .trailingData _ => true
  | .other _ => false

/-- Does errors.As recognize the optional error as a TrailingDataError? -/
def isTrailingOpt : Option BonErr → Bool
  | some e => e.isTrailing
  | none => false

/-- Failures of the auto-detecting converter's helper functions: a JSON parse
error, a decode error from the BONJSON codec, or a marshalling error. -/
inductive AutoFail where
  | parseErr
  | decodeErr (e : BonErr)
  | marshalErr
deriving DecidableEq

/-- Errors returned by convert, one constructor per wrap site in the source. -/
inductive ConvErr where
  | skipExceeds (skip len : Nat)
  | emptyInput
  | invalidJSON
  | invalidBONJSON (e : BonErr)
  | encodingJSON
  | encodingBONJSON
  | decodingBONJSON (e : BonErr)
  | convertingJSONToBONJSON (e : AutoFail)
  | convertingBONJSONToJSON (e : AutoFail)
deriving DecidableEq

/-- A write destination: standard output or a named file. -/
inductive Dest where
  | stdout
  | file (path : String)
deriving DecidableEq

/-- One write performed by writeOutput: the destination and the exact bytes
sent to it (including any appended display newline). -/
structure Write where
  dest : Dest
  bytes : List Nat
deriving DecidableEq

/-- The observable outcome of one convert call: the writes performed on the
output destination, the end offsets printed to the diagnostic stream, and the
returned error, if any. -/
structure ConvOut where
  writes : List Write
  stderrOffsets : List Nat
  err : Option ConvErr
deriving DecidableEq

/-- Duplicate-key handling modes of the BONJSON decoder. -/
inductive DupKeyMode where
  | reject
  | keepFirst
  | keepLast
deriving DecidableEq

/-- Invalid-UTF-8 handling modes of the BONJSON decoder. -/
inductive UTF8Mode where
  | reject
  | replace
  | delete
  | ignore
deriving DecidableEq

/-- NaN/Infinity handling modes of the BONJSON codec. -/
inductive NaNInfMode where
  | reject
  | allow
  | stringify
deriving DecidableEq

/-- The decoder configuration assembled by convert from the raw flag values
(switch statements over the mode strings; unrecognized strings leave the
decoder at its default). -/
structure DecoderConfig where
  allowNUL : Bool
  dupKey : DupKeyMode
  utf8 : UTF8Mode
  nanInf : NaNInfMode
deriving DecidableEq

/-- The -d mode string to the decoder setting, as the switch in convert. -/
def dupKeyModeOf : String → DupKeyMode
  | "keepfirst" => .keepFirst
  | "keeplast" => .keepLast
  | _ => .reject

/-- The -u mode string to the decoder setting, as the switch in convert. -/
def utf8ModeOf : String → UTF8Mode
  | "replace" => .replace
  | "delete" => .delete
  | "ignore" => .ignore
  | _ => .reject

/-- The -f mode string to the codec setting, as the switches in convert. -/
def nanInfModeOf : String → NaNInfMode
  | "allow" => .allow
  | "stringify" => .stringify
  | _ => .reject

/-- The external codec collaborator, abstracted.  V is the opaque in-memory
value type.  decode returns the (possibly partially populated) value, the
number of input bytes consumed, and an optional error; unmarshalWithByteCount
is the one-shot entry point used by the auto-detecting variant; the marshal
functions return none on serialization failure. -/
structure Codec (V : Type) where
  jsonUnmarshal : List Nat → Option V
  jsonMarshalIndent : V → Option (List Nat)
  bonjsonMarshal : V → Option (List Nat)
  unmarshalWithByteCount : List Nat → V × Nat × Option BonErr
  decode : DecoderConfig → List Nat → V × Nat × Option BonErr
  bonjsonEncode : NaNInfMode → V → Option (List Nat)

/-- writeOutput writes data to the named file, or to stdout if the path is
empty or the stdout token; a trailing newline is appended only when the path
is empty and the output is JSON. -/
def writeOutput (data : List Nat) (outputPath : String) (isJSON : Bool) : Write :=
  { dest := if outputPath = "" ∨ outputPath = "-" then .stdout else .file outputPath
    bytes := if outputPath = "" ∧ isJSON then data ++ [10] else data }

/-- The tail of the bonbon convert after the decode step: validate-only check,
encode to the destination form, write (only a non-empty output), then report
any pending decode error. -/
def encodeWriteReport {V : Type} (c : Codec V) (v : V) (outputPath : String)
    (outputJSON : Bool) (nanInfMode : String) (offs : List Nat)
    (decodeErr : Option BonErr) : ConvOut :=
  if outputPath = "" then
    match decodeErr with
    | some e => ⟨[], offs, some (.invalidBONJSON e)⟩
    | none => ⟨[], offs, none⟩
  else if outputJSON then
    match c.jsonMarshalIndent v with
    | none => ⟨[], offs, some .encodingJSON⟩
    | some output =>
      ⟨if 0 < output.length then [writeOutput output outputPath true] else [],
       offs, decodeErr.map ConvErr.decodingBONJSON⟩
  else
    match c.bonjsonEncode (nanInfModeOf nanInfMode) v with
    | none => ⟨[], offs, some .encodingBONJSON⟩
    | some output =>
      ⟨if 0 < output.length then [writeOutput output outputPath false] else [],
       offs, decodeErr.map ConvErr.decodingBONJSON⟩

namespace CLI

/-- The bonbon convert orchestrator (command-selected source and destination
forms), modelled after the input bytes have been read: apply the byte skip,
reject empty input, decode the source form (building the decoder configuration
from the flag strings, synthesizing a trailing-data error when the decoder
consumed less than the buffer, suppressing it under -t, and printing the end
offset under -e), then encode, write and report through encodeWriteReport. -/
def convert {V : Type} (c : Codec V) (data : List Nat) (outputPath : String)
    (inputJSON outputJSON allowTrailing : Bool) (skipBytes : Nat)
    (printEndOffset allowNUL : Bool) (dupKeyMode utf8Mode nanInfMode : String) :
    ConvOut :=
  if 0 < skipBytes ∧ data.length ≤ skipBytes then
    ⟨[], [], some (.skipExceeds skipBytes data.length)⟩
  else
    let d := if 0 < skipBytes then data.drop skipBytes else data
    if d.length = 0 then ⟨[], [], some .emptyInput⟩
    else if inputJSON then
      match c.jsonUnmarshal d with
      | none => ⟨[], [], some .invalidJSON⟩
      | some v => encodeWriteReport c v outputPath outputJSON nanInfMode [] none
    else
      let cfg : DecoderConfig :=
        ⟨allowNUL, dupKeyModeOf dupKeyMode, utf8ModeOf utf8Mode, nanInfModeOf nanInfMode⟩
      let r := c.decode cfg d
      let e1 : Option BonErr :=
        if r.2.2 = none ∧ r.2.1 < d.length then some (.trailingData r.2.1) else r.2.2
      let e2 : Option BonErr := if allowTrailing ∧ isTrailingOpt e1 then none else e1
      let offs : List Nat := if printEndOffset then [skipBytes + r.2.1] else []
      encodeWriteReport c r.1 outputPath outputJSON nanInfMode offs e2

end CLI

namespace Auto

/-- jsonToBONJSON of the auto-detecting variant: parse the JSON, then marshal
the value as BONJSON. -/
def jsonToBONJSON {V : Type} (c : Codec V) (data : List Nat) :
    Except AutoFail (List Nat) :=
  match c.jsonUnmarshal data with
  | none => .error .parseErr
  | some v =>
    match c.bonjsonMarshal v with
    | none => .error .marshalErr
    | some out => .ok out

/-- bonjsonToJSON of the auto-detecting variant: decode the BONJSON document,
suppress a trailing-data error when allowed, and pretty-print the value as
JSON; a surviving decode error is returned with no output. -/
def bonjsonToJSON {V : Type} (c : Codec V) (data : List Nat)
    (allowTrailing : Bool) : Except AutoFail (List Nat) :=
  let r := c.unmarshalWithByteCount data
  let e : Option BonErr := if allowTrailing ∧ isTrailingOpt r.2.2 then none else r.2.2
  match e with
  | some err => .error (.decodeErr err)
  | none =>
    match c.jsonMarshalIndent r.1 with
    | none => .error .marshalErr
    | some out => .ok out

/-- The auto-detecting convert orchestrator: apply the byte skip, reject empty
input, classify the input with detectJSON, convert to the opposite form, and
write the result; every failure of the chosen conversion aborts the request
before anything is written. -/
def convert {V : Type} (c : Codec V) (data : List Nat) (outputPath : String)
    (allowTrailing : Bool) (skipBytes : Nat) : ConvOut :=
  if 0 < skipBytes ∧ data.length ≤ skipBytes then
    ⟨[], [], some (.skipExceeds skipBytes data.length)⟩
  else
    let d := if 0 < skipBytes then data.drop skipBytes else data
    if d.length = 0 then ⟨[], [], some .emptyInput⟩
    else if detectJSON d then
      match jsonToBONJSON c d with
      | .error e => ⟨[], [], some (.convertingJSONToBONJSON e)⟩
      | .ok output => ⟨[writeOutput output outputPath false], [], none⟩
    else
      match bonjsonToJSON c d allowTrailing with
      | .error e => ⟨[], [], some (.convertingBONJSONToJSON e)⟩
      | .ok output => ⟨[writeOutput output outputPath true], [], none⟩

end Auto

/-- A concrete instantiation of the codec used by witnesses: decoding always
fails with a non-trailing error after consuming one byte. -/
def failCodec : Codec Unit where
  jsonUnmarshal := fun _ => some ()
  jsonMarshalIndent := fun _ => some [48]
  bonjsonMarshal := fun _ => some [0]
  unmarshalWithByteCount := fun _ => ((), 1, some (.other 7))
  decode := fun _ _ => ((), 1, some (.other 7))
  bonjsonEncode := fun _ _ => some [0]

/-- A concrete instantiation of the codec used by witnesses: decoding
consumes one byte and succeeds exactly when the buffer has one byte. -/
def prefixCodec : Codec Unit where
  jsonUnmarshal := fun _ => some ()
  jsonMarshalIndent := fun _ => some [42]
  bonjsonMarshal := fun _ => some [42]
  unmarshalWithByteCount := fun l => ((), 1, if l.length = 1 then none else some (.other 3))
  decode := fun _ l => ((), 1, if l.length = 1 then none else some (.other 3))
  bonjsonEncode := fun _ _ => some [42]

/-- A concrete instantiation of the codec used by witnesses: decoding always
succeeds after consuming one byte. -/
def oneByteCodec : Codec Unit where
  jsonUnmarshal := fun _ => some ()
  jsonMarshalIndent := fun _ => some [42]
  bonjsonMarshal := fun _ => some [42]
  unmarshalWithByteCount := fun _ => ((), 1, none)
  decode := fun _ _ => ((), 1, none)
  bonjsonEncode := fun _ _ => some [42]

/-! ### Well-formedness grammars

The codec that defines validity of either form is an external collaborator
(encoding/json and go-bonjson are not part of this repository), so the
grammars below are modelled from the spec.  The JSON grammar is permissive
about string bodies (every genuine JSON string fits the quoted shape used
here), which only enlarges the set of documents the exactness theorem covers.
The BONJSON grammar covers exactly the byte-level encodings stated in the
repository: reserved 0x66, small integers 0x00-0x64 and 0x9c-0xff, null/false/
true at 0x6d-0x6f, length-prefixed short strings 0x80-0x8f, the 5-byte
unsigned-integer prefix 0x74, the 4-byte signed-integer prefix 0x7b, the
8-byte float prefix 0x6c, and containers delimited by 0x99/0x9a and 0x9b. -/

/-- Consume one or more ASCII digits: the head must be a digit, and the
following run of digits is consumed greedily. -/
def parseDigits1 : List Nat → Option (List Nat)
  | [] => none
  | b :: t => if isDigit b then some (t.dropWhile isDigit) else none

/-- Consume the integer part of a JSON number: a lone zero, or a nonzero
digit followed by any run of digits. -/
def parseInt : List Nat → Option (List Nat)
  | [] => none
  | b :: t =>
    if b == 48 then some t
    else if 49 ≤ b ∧ b ≤ 57 then some (t.dropWhile isDigit) else none

/-- Consume an optional fraction part: a decimal point followed by one or
more digits. -/
def parseFrac : List Nat → Option (List Nat)
  | [] => some []
  | b :: t => if b == 46 then parseDigits1 t else some (b :: t)

/-- Consume an optional exponent part: an exponent marker, an optional sign,
and one or more digits. -/
def parseExp : List Nat → Option (List Nat)
  | [] => some []
  | b :: t =>
    if b == 101 || b == 69 then
      match t with
      | [] => none
      | c :: t2 => if c == 43 || c == 45 then parseDigits1 t2 else parseDigits1 (c :: t2)
    else some (b :: t)

/-- Modelled from the spec: l is exactly the serialized form of a JSON number
(optional minus, integer part without leading zeros, optional fraction,
optional exponent); the JSON number grammar itself belongs to the external
text-form codec. -/
def isJSONNumber (l : List Nat) : Bool :=
  let rest := match l with
    | [] => []
    | b :: t => if b == 45 then t else b :: t
  match parseInt rest with
  | none => false
  | some r1 =>
    match parseFrac r1 with
    | none => false
    | some r2 =>
      match parseExp r2 with
      | none => false
      | some r3 => r3.isEmpty

/-- Every byte of the list is text-form whitespace. -/
def WSl (w : List Nat) : Prop := ∀ b ∈ w, isWhitespace b = true

mutual
/-- Modelled from the spec: v is exactly the serialized form of one
well-formed JSON value (the text-form grammar belongs to the external codec).
String bodies are unconstrained: every genuine JSON string fits the quoted
shape, so this only enlarges the grammar. -/
inductive JVal : List Nat → Prop where
  | jnull : JVal [110, 117, 108, 108]
  | jtrue : JVal [116, 114, 117, 101]
  | jfalse : JVal [102, 97, 108, 115, 101]
  | jstr (s : List Nat) : JVal (34 :: s ++ [34])
  | jnum (l : List Nat) : isJSONNumber l = true → JVal l
  | jarrNil (w : List Nat) : WSl w → JVal (91 :: w ++ [93])
  | jarrCons (l : List Nat) : JElems l → JVal (91 :: l ++ [93])
  | jobjNil (w : List Nat) : WSl w → JVal (123 :: w ++ [125])
  | jobjCons (l : List Nat) : JMembers l → JVal (123 :: l ++ [125])

/-- Modelled from the spec: l is a nonempty comma-separated sequence of
whitespace-padded JSON values (the contents of a nonempty array). -/
inductive JElems : List Nat → Prop where
  | single (w1 v w2 : List Nat) : WSl w1 → JVal v → WSl w2 → JElems (w1 ++ v ++ w2)
  | cons (w1 v w2 rest : List Nat) : WSl w1 → JVal v → WSl w2 → JElems rest →
      JElems (w1 ++ v ++ w2 ++ 44 :: rest)

/-- Modelled from the spec: l is a nonempty comma-separated sequence of
members (quoted key, colon, element) of a JSON object. -/
inductive JMembers : List Nat → Prop where
  | single (w1 s w2 el : List Nat) : WSl w1 → WSl w2 → JElems el →
      JMembers (w1 ++ (34 :: s ++ [34]) ++ w2 ++ 58 :: el)
  | cons (w1 s w2 el rest : List Nat) : WSl w1 → WSl w2 → JElems el → JMembers rest →
      JMembers (w1 ++ (34 :: s ++ [34]) ++ w2 ++ 58 :: el ++ 44 :: rest)
end

/-- Modelled from the spec: d is a well-formed JSON document, one value with
optional surrounding whitespace. -/
def JDoc (d : List Nat) : Prop :=
  ∃ w1 v w2, WSl w1 ∧ JVal v ∧ WSl w2 ∧ d = w1 ++ v ++ w2

/-- Does the document consist of optional leading whitespace followed by one
single digit and nothing else (the detector's deliberate text-side blind
spot)? -/
def loneDigitDoc (d : List Nat) : Bool :=
  match d.dropWhile isWhitespace with
  | [b] => isDigit b
  | _ => false

/-- Modelled from the spec: d is a well-formed binary-form (BONJSON) document
per the byte-level encodings stated in the repository.  Container contents
are unconstrained, which only enlarges the grammar. -/
inductive BonDoc : List Nat → Prop where
  | smallInt (b : Nat) : b ≤ 100 → BonDoc [b]
  | negSmallInt (b : Nat) : 156 ≤ b → b ≤ 255 → BonDoc [b]
  | bnull : BonDoc [109]
  | bfalse : BonDoc [110]
  | btrue : BonDoc [111]
  | shortStr (n : Nat) (s : List Nat) : n ≤ 15 → s.length = n → BonDoc ((128 + n) :: s)
  | uint5 (s : List Nat) : s.length = 5 → BonDoc (116 :: s)
  | sint4 (s : List Nat) : s.length = 4 → BonDoc (123 :: s)
  | float64 (s : List Nat) : s.length = 8 → BonDoc (108 :: s)
  | arr (s : List Nat) : BonDoc (153 :: s ++ [155])
  | obj (s : List Nat) : BonDoc (154 :: s ++ [155])

/-- The binary-form documents the detector deliberately or unavoidably
misclassifies as text: a document that is a single whitespace-valued small
integer, a 5-byte unsigned integer whose payload begins with the bytes of
"rue", and a 4-byte signed integer whose payload resembles an object
opening. -/
def bonMisdetected (d : List Nat) : Bool :=
  match d with
  | [] => false
  | [b] => isWhitespace b
  | b :: rest =>
    if b == 116 then startsWith3 rest 114 117 101
    else if b == 123 then looksLikeJSONObjectL rest
    else false


/-! ### Characterization of the detector through dropWhile

The Go functions walk the buffer with an integer index.  The lemmas below
re-express them through `List.dropWhile`, which is more convenient for
structural proofs. -/

theorem skipWhitespaceAux_eq (l : List Nat) (i : Nat) :
    skipWhitespaceAux l i = i + (l.takeWhile isWhitespace).length := by
  induction l generalizing i with
  | nil => simp [skipWhitespaceAux]
  | cons b t ih =>
    by_cases hb : isWhitespace b
    · simp [skipWhitespaceAux, hb, List.takeWhile_cons, ih]
      omega
    · simp [skipWhitespaceAux, hb, List.takeWhile_cons]

theorem drop_takeWhile_length (p : Nat → Bool) (l : List Nat) :
    l.drop (l.takeWhile p).length = l.dropWhile p := by
  induction l with
  | nil => simp
  | cons b t ih =>
    by_cases hb : p b
    · simp [List.takeWhile_cons, List.dropWhile_cons, hb, ih]
    · simp [List.takeWhile_cons, List.dropWhile_cons, hb]

theorem getD_eq_headD_drop (l : List Nat) (n d : Nat) :
    l.getD n d = (l.drop n).headD d := by
  induction n generalizing l with
  | zero => cases l <;> rfl
  | succ n ih =>
    cases l with
    | nil => rfl
    | cons b t => simp [List.getD, ih]

theorem takeWhile_dropWhile_length (p : Nat → Bool) (l : List Nat) :
    (l.takeWhile p).length + (l.dropWhile p).length = l.length := by
  rw [← List.length_append, List.takeWhile_append_dropWhile]

theorem skipWhitespace_zero (data : List Nat) :
    skipWhitespace data 0 = (data.takeWhile isWhitespace).length := by
  simp [skipWhitespace, skipWhitespaceAux_eq]

theorem drop_skipWhitespace (data : List Nat) :
    data.drop (skipWhitespace data 0) = data.dropWhile isWhitespace := by
  rw [skipWhitespace_zero, drop_takeWhile_length]

theorem skipWhitespace_lt_iff (data : List Nat) :
    skipWhitespace data 0 < data.length ↔ data.dropWhile isWhitespace ≠ [] := by
  rw [skipWhitespace_zero]
  have h := takeWhile_dropWhile_length isWhitespace data
  constructor
  · intro hlt hnil
    rw [hnil] at h
    simp at h
    omega
  · intro hne
    have : 0 < (data.dropWhile isWhitespace).length := by
      cases hd : data.dropWhile isWhitespace with
      | nil => exact absurd hd hne
      | cons b t => simp [hd]
    omega

theorem getD_skipWhitespace (data : List Nat) (d : Nat) :
    data.getD (skipWhitespace data 0) d = (data.dropWhile isWhitespace).headD d := by
  rw [getD_eq_headD_drop, drop_skipWhitespace]

theorem drop_skipWhitespace_succ (data : List Nat) :
    data.drop (skipWhitespace data 0 + 1) = (data.dropWhile isWhitespace).tail := by
  rw [← List.tail_drop, drop_skipWhitespace]

theorem startsWith3_eq (l : List Nat) (a b c : Nat) :
    startsWith3 l a b c =
      (decide (3 ≤ l.length) && l.getD 0 0 == a && l.getD 1 0 == b && l.getD 2 0 == c) := by
  rcases l with _ | ⟨x, _ | ⟨y, _ | ⟨z, t⟩⟩⟩ <;> simp [startsWith3]

theorem looksLikeJSONObject_eq (r : List Nat) :
    looksLikeJSONObject r = looksLikeJSONObjectL r := by
  unfold looksLikeJSONObject looksLikeJSONObjectL
  rcases h : r.dropWhile isWhitespace with _ | ⟨b, t⟩
  · have hn : ¬ skipWhitespace r 0 < r.length := by
      rw [skipWhitespace_lt_iff, h]
      simp
    simp [hn]
  · have h1 : skipWhitespace r 0 < r.length := by
      rw [skipWhitespace_lt_iff, h]
      simp
    have h2 : r.getD (skipWhitespace r 0) 0 = b := by
      rw [getD_skipWhitespace, h]
      rfl
    simp only [h, h2, h1, if_true]

theorem looksLikeJSONArray_eq (r : List Nat) :
    looksLikeJSONArray r = looksLikeJSONArrayL r := by
  unfold looksLikeJSONArray looksLikeJSONArrayL
  rcases h : r.dropWhile isWhitespace with _ | ⟨b, t⟩
  · have hn : ¬ skipWhitespace r 0 < r.length := by
      rw [skipWhitespace_lt_iff, h]
      simp
    simp [hn]
  · have h1 : skipWhitespace r 0 < r.length := by
      rw [skipWhitespace_lt_iff, h]
      simp
    have h2 : r.getD (skipWhitespace r 0) 0 = b := by
      rw [getD_skipWhitespace, h]
      rfl
    simp only [h, h2, h1, if_true]

theorem isEmpty_decide (l : List Nat) : (!l.isEmpty) = decide (0 < l.length) := by
  cases l <;> simp

theorem headIsDigit_eq (l : List Nat) :
    headIsDigit l = (decide (0 < l.length) && isDigit (l.getD 0 0)) := by
  cases l <;> simp [headIsDigit]

theorem headIsCont_eq (l : List Nat) :
    headIsCont l =
      (if l.length == 0 then false else isJSONNumberOrDocContinuation (l.getD 0 0)) := by
  cases l <;> simp [headIsCont]

theorem detectJSON_eq_stripped (data : List Nat) :
    detectJSON data = detectStripped (data.dropWhile isWhitespace) := by
  unfold detectJSON
  rcases h : data.dropWhile isWhitespace with _ | ⟨first, rest⟩
  · have hn : ¬ skipWhitespace data 0 < data.length := by
      rw [skipWhitespace_lt_iff, h]
      simp
    simp [hn, detectStripped]
  · have h1 : skipWhitespace data 0 < data.length := by
      rw [skipWhitespace_lt_iff, h]
      simp
    have h2 : data.getD (skipWhitespace data 0) 0 = first := by
      rw [getD_skipWhitespace, h]
      rfl
    have h3 : data.drop (skipWhitespace data 0 + 1) = rest := by
      rw [drop_skipWhitespace_succ, h]
      rfl
    simp only [h1, if_true, h2, h3, detectStripped, looksLikeJSONObject_eq,
      looksLikeJSONArray_eq, startsWith3_eq, headIsDigit_eq, headIsCont_eq]
    rw [isEmpty_decide]

/-! ### Whitespace invariance and the lookahead window -/

theorem dropWhile_ws_append (w l : List Nat) (hw : ∀ b ∈ w, isWhitespace b = true) :
    (w ++ l).dropWhile isWhitespace = l.dropWhile isWhitespace := by
  induction w with
  | nil => simp
  | cons b t ih =>
    have hb := hw b (by simp)
    rw [List.cons_append, List.dropWhile_cons, if_pos hb]
    exact ih fun x hx => hw x (by simp [hx])

theorem startsWith3_take (l₁ l₂ : List Nat) (a b c : Nat) (h : l₁.take 3 = l₂.take 3) :
    startsWith3 l₁ a b c = startsWith3 l₂ a b c := by
  rcases l₁ with _ | ⟨x, _ | ⟨y, _ | ⟨z, t⟩⟩⟩ <;>
    rcases l₂ with _ | ⟨x', _ | ⟨y', _ | ⟨z', t'⟩⟩⟩ <;>
      simp_all [startsWith3, List.take]

theorem isEmpty_take (l₁ l₂ : List Nat) (h : l₁.take 1 = l₂.take 1) :
    l₁.isEmpty = l₂.isEmpty := by
  cases l₁ with
  | nil =>
    cases l₂ with
    | nil => rfl
    | cons b t => exact absurd h (by simp)
  | cons b t =>
    cases l₂ with
    | nil => exact absurd h (by simp)
    | cons b' t' => rfl

theorem headIsDigit_take (l₁ l₂ : List Nat) (h : l₁.take 1 = l₂.take 1) :
    headIsDigit l₁ = headIsDigit l₂ := by
  cases l₁ with
  | nil =>
    cases l₂ with
    | nil => rfl
    | cons b t => exact absurd h (by simp)
  | cons b t =>
    cases l₂ with
    | nil => exact absurd h (by simp)
    | cons b' t' =>
      simp at h
      simp [headIsDigit, h]

theorem headIsCont_take (l₁ l₂ : List Nat) (h : l₁.take 1 = l₂.take 1) :
    headIsCont l₁ = headIsCont l₂ := by
  cases l₁ with
  | nil =>
    cases l₂ with
    | nil => rfl
    | cons b t => exact absurd h (by simp)
  | cons b t =>
    cases l₂ with
    | nil => exact absurd h (by simp)
    | cons b' t' =>
      simp at h
      simp [headIsCont, h]

theorem looksLikeJSONObjectL_take (r₁ r₂ : List Nat)
    (h : (r₁.dropWhile isWhitespace).take 1 = (r₂.dropWhile isWhitespace).take 1) :
    looksLikeJSONObjectL r₁ = looksLikeJSONObjectL r₂ := by
  unfold looksLikeJSONObjectL
  rcases h₁ : r₁.dropWhile isWhitespace with _ | ⟨b₁, t₁⟩ <;>
    rcases h₂ : r₂.dropWhile isWhitespace with _ | ⟨b₂, t₂⟩ <;>
      simp_all [List.take]

theorem looksLikeJSONArrayL_take (r₁ r₂ : List Nat)
    (h : (r₁.dropWhile isWhitespace).take 1 = (r₂.dropWhile isWhitespace).take 1) :
    looksLikeJSONArrayL r₁ = looksLikeJSONArrayL r₂ := by
  unfold looksLikeJSONArrayL
  rcases h₁ : r₁.dropWhile isWhitespace with _ | ⟨b₁, t₁⟩ <;>
    rcases h₂ : r₂.dropWhile isWhitespace with _ | ⟨b₂, t₂⟩ <;>
      simp_all [List.take]

set_option maxHeartbeats 1000000 in
theorem detectStripped_window (a : Nat) (t₁ t₂ : List Nat)
    (ht : t₁.take 3 = t₂.take 3)
    (h2 : (t₁.dropWhile isWhitespace).take 1 = (t₂.dropWhile isWhitespace).take 1) :
    detectStripped (a :: t₁) = detectStripped (a :: t₂) := by
  have ht1 : t₁.take 1 = t₂.take 1 := by
    have h' := congrArg (List.take 1) ht
    simpa [List.take_take] using h'
  simp only [detectStripped]
  split_ifs
  · rfl
  · rfl
  · rfl
  · exact startsWith3_take _ _ _ _ _ ht
  · exact startsWith3_take _ _ _ _ _ ht
  · exact looksLikeJSONObjectL_take _ _ h2
  · exact looksLikeJSONArrayL_take _ _ h2
  · rw [isEmpty_take _ _ ht1]
  · exact headIsDigit_take _ _ ht1
  · exact headIsCont_take _ _ ht1
  · rfl

/-! ### Detector facts used by the claims -/

theorem dropWhile_cons_of_neg (b : Nat) (t : List Nat) (hb : isWhitespace b = false) :
    (b :: t).dropWhile isWhitespace = b :: t := by
  rw [List.dropWhile_cons, hb]
  rfl

theorem detectJSON_cons_of_not_ws (b : Nat) (t : List Nat) (hb : isWhitespace b = false) :
    detectJSON (b :: t) = detectStripped (b :: t) := by
  rw [detectJSON_eq_stripped, dropWhile_cons_of_neg b t hb]

theorem detectJSON_starts_153 (rest : List Nat) : detectJSON (153 :: rest) = false := by
  rw [detectJSON_cons_of_not_ws 153 rest (by decide)]
  rfl

/-- C1: the format detector returns exactly the classifications pinned in the
spec's literal cases: "false", "true", "null", an object with a quoted key,
"[1]", a quoted string, "-5" and "123" are TextForm; a buffer starting with
0x99, the 't'/5-byte, lone 'n', '\x7b'/4-byte, lone bracket, lone quote,
lone minus and lone digit buffers are BinaryForm. -/
theorem detect_literal_cases :
    detectJSON [102, 97, 108, 115, 101] = true ∧
    (∀ rest : List Nat, detectJSON (153 :: rest) = false) ∧
    detectJSON [116, 114, 117, 101] = true ∧
    detectJSON [116, 0, 0, 0, 0, 0] = false ∧
    detectJSON [110, 117, 108, 108] = true ∧
    detectJSON [110] = false ∧
    detectJSON [123, 34, 107, 34, 58, 49, 125] = true ∧
    detectJSON [123, 1, 2, 3, 4] = false ∧
    detectJSON [91, 49, 93] = true ∧
    detectJSON [91] = false ∧
    detectJSON [34, 120, 34] = true ∧
    detectJSON [34] = false ∧
    detectJSON [45, 53] = true ∧
    detectJSON [45] = false ∧
    detectJSON [49, 50, 51] = true ∧
    detectJSON [53] = false :=
  ⟨by decide, detectJSON_starts_153, by decide, by decide, by decide, by decide,
   by decide, by decide, by decide, by decide, by decide, by decide, by decide,
   by decide, by decide, by decide⟩

theorem detectJSON_ws_prepend (w data : List Nat)
    (hw : ∀ b ∈ w, isWhitespace b = true) :
    detectJSON (w ++ data) = detectJSON data := by
  rw [detectJSON_eq_stripped, detectJSON_eq_stripped, dropWhile_ws_append w data hw]

/-- C10: for every buffer and every sequence of whitespace bytes, prepending
the whitespace does not change the detector's classification. -/
theorem detect_ws_invariant (w data : List Nat)
    (hw : ∀ b ∈ w, isWhitespace b = true) :
    detectJSON (w ++ data) = detectJSON data :=
  detectJSON_ws_prepend w data hw

/-- Witness for C10 at a concrete whitespace run and buffer. -/
theorem detect_ws_invariant_witness :
    (∀ b ∈ ([32, 9, 10, 13] : List Nat), isWhitespace b = true) ∧
      detectJSON ([32, 9, 10, 13] ++ [116, 114, 117, 101]) =
        detectJSON [116, 114, 117, 101] :=
  ⟨by decide, detect_ws_invariant [32, 9, 10, 13] [116, 114, 117, 101] (by decide)⟩

/-! ### Orchestrator lemmas -/

theorem encodeWriteReport_validate_writes {V : Type} (c : Codec V) (v : V)
    (oJ : Bool) (ni : String) (offs : List Nat) (de : Option BonErr) :
    (encodeWriteReport c v "" oJ ni offs de).writes = [] := by
  unfold encodeWriteReport
  rw [if_pos rfl]
  cases de <;> rfl

/-- C8: with an empty output path (the validate-only commands j and b) the
bonbon converter writes no output bytes to any destination, whatever the
input, flags and outcome; only the error/success signal is produced. -/
theorem validate_only_no_output {V : Type} (c : Codec V) (data : List Nat)
    (inputJSON outputJSON allowTrailing : Bool) (skipBytes : Nat)
    (printEndOffset allowNUL : Bool) (dupKeyMode utf8Mode nanInfMode : String) :
    (CLI.convert c data "" inputJSON outputJSON allowTrailing skipBytes
      printEndOffset allowNUL dupKeyMode utf8Mode nanInfMode).writes = [] := by
  simp only [CLI.convert]
  split_ifs <;>
    first
      | rfl
      | apply encodeWriteReport_validate_writes
      | (split <;> rfl)

/-- C9: in the auto-detecting converter variant, whenever the binary-form
decode fails with an error that is not a suppressed trailing-data error,
convert returns that error (wrapped at its wrap site) and writes nothing to
the destination. -/
theorem auto_decode_error_no_output {V : Type} (c : Codec V) (data : List Nat)
    (outputPath : String) (allowTrailing : Bool) (e : BonErr)
    (hne : data ≠ [])
    (hdet : detectJSON data = false)
    (hdec : (c.unmarshalWithByteCount data).2.2 = some e)
    (hsup : ¬(allowTrailing = true ∧ e.isTrailing = true)) :
    Auto.convert c data outputPath allowTrailing 0 =
      ⟨[], [], some (.convertingBONJSONToJSON (.decodeErr e))⟩ := by
  have hlen : ¬ data.length = 0 := fun h => hne (List.length_eq_zero.mp h)
  have h01 : (if (0 : Nat) < 0 then data.drop 0 else data) = data := by simp
  simp only [Auto.convert, h01]
  rw [if_neg (by simp), if_neg hlen, if_neg (by simp [hdet])]
  simp only [Auto.bonjsonToJSON, hdec, isTrailingOpt]
  rw [if_neg hsup]

/-- Witness for C9: a concrete codec whose decode fails on a concrete
binary-classified input. -/
theorem auto_decode_error_no_output_witness :
    Auto.convert failCodec [153, 1] "out" false 0 =
      ⟨[], [], some (.convertingBONJSONToJSON (.decodeErr (.other 7)))⟩ :=
  auto_decode_error_no_output failCodec [153, 1] "out" false (.other 7)
    (by decide) (by decide) (by decide) (by decide)

theorem encodeWriteReport_writes_eq {V : Type} (c : Codec V) (v : V) (path : String)
    (oJ : Bool) (ni : String) (offs offs2 : List Nat) (de de2 : Option BonErr) :
    (encodeWriteReport c v path oJ ni offs de).writes =
      (encodeWriteReport c v path oJ ni offs2 de2).writes := by
  unfold encodeWriteReport
  split_ifs
  · cases de <;> cases de2 <;> rfl
  · cases c.jsonMarshalIndent v <;> rfl
  · cases c.bonjsonEncode (nanInfModeOf ni) v <;> rfl

theorem encodeWriteReport_err_some {V : Type} (c : Codec V) (v : V) (path : String)
    (oJ : Bool) (ni : String) (offs offs2 : List Nat) (e : BonErr)
    (hpath : ¬ path = "")
    (hok : (encodeWriteReport c v path oJ ni offs none).err = none) :
    (encodeWriteReport c v path oJ ni offs2 (some e)).err =
      some (.decodingBONJSON e) := by
  unfold encodeWriteReport at hok ⊢
  rw [if_neg hpath] at hok ⊢
  by_cases hoJ : oJ = true
  · rw [if_pos hoJ] at hok ⊢
    cases h : c.jsonMarshalIndent v with
    | none => simp [h] at hok
    | some out => rfl
  · rw [if_neg hoJ] at hok ⊢
    cases h : c.bonjsonEncode (nanInfModeOf ni) v with
    | none => simp [h] at hok
    | some out => rfl

/-- Reduction of the bonbon converter on BONJSON input with no skip: the
outcome is the encode/write/report tail applied to the decoded value, the
optional end offset, and the decode error after the trailing-data check and
its optional suppression. -/
theorem cli_convert_bonjson_decoded {V : Type} (c : Codec V) (data : List Nat)
    (outputPath : String) (outputJSON allowTrailing printEndOffset allowNUL : Bool)
    (dupKeyMode utf8Mode nanInfMode : String) (v : V) (n : Nat) (de : Option BonErr)
    (hne : data ≠ [])
    (hdec : c.decode ⟨allowNUL, dupKeyModeOf dupKeyMode, utf8ModeOf utf8Mode,
        nanInfModeOf nanInfMode⟩ data = (v, n, de)) :
    CLI.convert c data outputPath false outputJSON allowTrailing 0 printEndOffset
        allowNUL dupKeyMode utf8Mode nanInfMode =
      encodeWriteReport c v outputPath outputJSON nanInfMode
        (if printEndOffset then [0 + n] else [])
        (if allowTrailing ∧
            isTrailingOpt (if de = none ∧ n < data.length then some (.trailingData n) else de)
          then none
          else if de = none ∧ n < data.length then some (.trailingData n) else de) := by
  have hlen : ¬ data.length = 0 := fun h => hne (List.length_eq_zero.mp h)
  have h01 : (if (0 : Nat) < 0 then data.drop 0 else data) = data := by simp
  simp only [CLI.convert, h01]
  rw [if_neg (by simp), if_neg hlen, if_neg (by simp), hdec]

/-- C3: partial-result policy of the bonbon converter.  When the decode of a
binary-form input fails (with an error that survives trailing-data
suppression) but the same configuration decodes some prefix to the same value
successfully and converting that prefix succeeds, the failed conversion
writes exactly what the successful conversion of the prefix writes, and
reports the decode error as the failure of the whole request. -/
theorem partial_output_on_decode_error {V : Type} (c : Codec V)
    (data dataPrefix : List Nat) (v : V) (n : Nat) (e : BonErr)
    (outputPath : String) (outputJSON allowTrailing printEndOffset allowNUL : Bool)
    (dupKeyMode utf8Mode nanInfMode : String)
    (hpath : outputPath ≠ "")
    (hdata : data ≠ []) (hpre : dataPrefix ≠ [])
    (hdec : c.decode ⟨allowNUL, dupKeyModeOf dupKeyMode, utf8ModeOf utf8Mode,
        nanInfModeOf nanInfMode⟩ data = (v, n, some e))
    (hsup : ¬(allowTrailing = true ∧ e.isTrailing = true))
    (hpredec : c.decode ⟨allowNUL, dupKeyModeOf dupKeyMode, utf8ModeOf utf8Mode,
        nanInfModeOf nanInfMode⟩ dataPrefix = (v, dataPrefix.length, none))
    (hsucc : (CLI.convert c dataPrefix outputPath false outputJSON allowTrailing 0
        printEndOffset allowNUL dupKeyMode utf8Mode nanInfMode).err = none) :
    (CLI.convert c data outputPath false outputJSON allowTrailing 0 printEndOffset
        allowNUL dupKeyMode utf8Mode nanInfMode).writes =
      (CLI.convert c dataPrefix outputPath false outputJSON allowTrailing 0
        printEndOffset allowNUL dupKeyMode utf8Mode nanInfMode).writes ∧
    (CLI.convert c data outputPath false outputJSON allowTrailing 0 printEndOffset
        allowNUL dupKeyMode utf8Mode nanInfMode).err =
      some (.decodingBONJSON e) := by
  have hD := cli_convert_bonjson_decoded c data outputPath outputJSON allowTrailing
    printEndOffset allowNUL dupKeyMode utf8Mode nanInfMode v n (some e) hdata hdec
  have hP := cli_convert_bonjson_decoded c dataPrefix outputPath outputJSON allowTrailing
    printEndOffset allowNUL dupKeyMode utf8Mode nanInfMode v dataPrefix.length none
    hpre hpredec
  have hfD : (if some e = none ∧ n < data.length then some (BonErr.trailingData n)
      else some e) = some e := by simp
  rw [hfD] at hD
  simp only [isTrailingOpt] at hD
  rw [if_neg hsup] at hD
  have hfP : (if (none : Option BonErr) = none ∧ dataPrefix.length < dataPrefix.length
      then some (BonErr.trailingData dataPrefix.length) else none) = (none : Option BonErr) := by
    simp
  rw [hfP] at hP
  simp only [isTrailingOpt] at hP
  rw [ite_self] at hP
  rw [hP] at hsucc
  constructor
  · rw [hD, hP]
    exact encodeWriteReport_writes_eq c v outputPath outputJSON nanInfMode _ _ _ _
  · rw [hD]
    exact encodeWriteReport_err_some c v outputPath outputJSON nanInfMode _ _ e hpath hsucc

/-- Witness for C3: a failing two-byte decode writes exactly what the
successful one-byte prefix conversion writes and reports the decode error. -/
theorem partial_output_on_decode_error_witness :
    (CLI.convert prefixCodec [5, 6] "out" false false false 0 false false
        "" "" "").writes =
      (CLI.convert prefixCodec [5] "out" false false false 0 false false
        "" "" "").writes ∧
    (CLI.convert prefixCodec [5, 6] "out" false false false 0 false false
        "" "" "").err = some (.decodingBONJSON (.other 3)) :=
  partial_output_on_decode_error prefixCodec [5, 6] [5] () 1 (.other 3) "out"
    false false false false "" "" "" (by decide) (by decide) (by decide)
    (by decide) (by decide) (by decide) (by decide)

/-- C4: trailing-data suppression.  For a document D that the codec decodes
fully to a value, followed by nonempty extra bytes T: without -t the
conversion of D ++ T writes exactly what converting D writes and fails with
the trailing-data error; with -t it produces the identical outcome to
converting D, in particular it succeeds with identical output bytes. -/
theorem trailing_data_suppression {V : Type} (c : Codec V) (D T : List Nat) (v : V)
    (outputPath : String) (outputJSON printEndOffset allowNUL : Bool)
    (dupKeyMode utf8Mode nanInfMode : String)
    (hpath : outputPath ≠ "") (hD : D ≠ []) (hT : T ≠ [])
    (hdecD : c.decode ⟨allowNUL, dupKeyModeOf dupKeyMode, utf8ModeOf utf8Mode,
        nanInfModeOf nanInfMode⟩ D = (v, D.length, none))
    (hdecDT : c.decode ⟨allowNUL, dupKeyModeOf dupKeyMode, utf8ModeOf utf8Mode,
        nanInfModeOf nanInfMode⟩ (D ++ T) = (v, D.length, none))
    (hsucc : (CLI.convert c D outputPath false outputJSON false 0 printEndOffset
        allowNUL dupKeyMode utf8Mode nanInfMode).err = none) :
    (CLI.convert c (D ++ T) outputPath false outputJSON false 0 printEndOffset
        allowNUL dupKeyMode utf8Mode nanInfMode).writes =
      (CLI.convert c D outputPath false outputJSON false 0 printEndOffset
        allowNUL dupKeyMode utf8Mode nanInfMode).writes ∧
    (CLI.convert c (D ++ T) outputPath false outputJSON false 0 printEndOffset
        allowNUL dupKeyMode utf8Mode nanInfMode).err =
      some (.decodingBONJSON (.trailingData D.length)) ∧
    CLI.convert c (D ++ T) outputPath false outputJSON true 0 printEndOffset
        allowNUL dupKeyMode utf8Mode nanInfMode =
      CLI.convert c D outputPath false outputJSON false 0 printEndOffset
        allowNUL dupKeyMode utf8Mode nanInfMode ∧
    (CLI.convert c D outputPath false outputJSON false 0 printEndOffset
        allowNUL dupKeyMode utf8Mode nanInfMode).err = none := by
  have hDT : D ++ T ≠ [] := fun h => hD (List.append_eq_nil.mp h).1
  have hlt : D.length < (D ++ T).length := by
    have hTpos : 0 < T.length := List.length_pos.mpr hT
    rw [List.length_append]
    omega
  have h0 := cli_convert_bonjson_decoded c D outputPath outputJSON false printEndOffset
    allowNUL dupKeyMode utf8Mode nanInfMode v D.length none hD hdecD
  have h1 := cli_convert_bonjson_decoded c (D ++ T) outputPath outputJSON false
    printEndOffset allowNUL dupKeyMode utf8Mode nanInfMode v D.length none hDT hdecDT
  have h2 := cli_convert_bonjson_decoded c (D ++ T) outputPath outputJSON true
    printEndOffset allowNUL dupKeyMode utf8Mode nanInfMode v D.length none hDT hdecDT
  have he0 : (if (none : Option BonErr) = none ∧ D.length < D.length
      then some (BonErr.trailingData D.length) else (none : Option BonErr)) =
      (none : Option BonErr) := if_neg (by simp)
  rw [he0] at h0
  simp only [isTrailingOpt] at h0
  rw [if_neg (show ¬((false : Bool) = true ∧ (false : Bool) = true) from by decide)] at h0
  have he1 : (if (none : Option BonErr) = none ∧ D.length < (D ++ T).length
      then some (BonErr.trailingData D.length) else (none : Option BonErr)) =
      some (BonErr.trailingData D.length) := if_pos ⟨rfl, hlt⟩
  rw [he1] at h1 h2
  simp only [isTrailingOpt, BonErr.isTrailing] at h1 h2
  rw [if_neg (show ¬((false : Bool) = true ∧ True) from by simp)] at h1
  rw [if_pos (show True ∧ True from ⟨trivial, trivial⟩)] at h2
  rw [h0] at hsucc
  refine ⟨?_, ?_, ?_, ?_⟩
  · rw [h0, h1]
    exact encodeWriteReport_writes_eq c v outputPath outputJSON nanInfMode _ _ _ _
  · rw [h1]
    exact encodeWriteReport_err_some c v outputPath outputJSON nanInfMode _ _ _ hpath hsucc
  · rw [h0, h2]
  · rw [h0]
    exact hsucc

/-- Witness for C4 with a concrete codec, document and trailing byte. -/
theorem trailing_data_suppression_witness :
    (CLI.convert oneByteCodec [9, 8] "out" false false false 0 false false
        "" "" "").writes =
      (CLI.convert oneByteCodec [9] "out" false false false 0 false false
        "" "" "").writes ∧
    (CLI.convert oneByteCodec [9, 8] "out" false false false 0 false false
        "" "" "").err = some (.decodingBONJSON (.trailingData 1)) ∧
    CLI.convert oneByteCodec [9, 8] "out" false false true 0 false false "" "" "" =
      CLI.convert oneByteCodec [9] "out" false false false 0 false false "" "" "" ∧
    (CLI.convert oneByteCodec [9] "out" false false false 0 false false
        "" "" "").err = none :=
  trailing_data_suppression oneByteCodec [9] [8] () "out" false false false "" "" ""
    (by decide) (by decide) (by decide) (by decide) (by decide) (by decide)

theorem cli_skip_prefix_writes {V : Type} (c : Codec V) (P D : List Nat)
    (outputPath : String)
    (inputJSON outputJSON allowTrailing printEndOffset allowNUL : Bool)
    (dupKeyMode utf8Mode nanInfMode : String) :
    (CLI.convert c (P ++ D) outputPath inputJSON outputJSON allowTrailing P.length
        printEndOffset allowNUL dupKeyMode utf8Mode nanInfMode).writes =
      (CLI.convert c D outputPath inputJSON outputJSON allowTrailing 0
        printEndOffset allowNUL dupKeyMode utf8Mode nanInfMode).writes := by
  by_cases hP0 : P = []
  · subst hP0
    simp
  · have hPpos : 0 < P.length := List.length_pos.mpr hP0
    cases D with
    | nil =>
      rw [List.append_nil]
      have hL : (CLI.convert c P outputPath inputJSON outputJSON allowTrailing P.length
          printEndOffset allowNUL dupKeyMode utf8Mode nanInfMode).writes = [] := by
        unfold CLI.convert
        rw [if_pos ⟨hPpos, le_refl P.length⟩]
      have hR : (CLI.convert c [] outputPath inputJSON outputJSON allowTrailing 0
          printEndOffset allowNUL dupKeyMode utf8Mode nanInfMode).writes = [] := by
        unfold CLI.convert
        rw [if_neg (by simp)]
        simp
      rw [hL, hR]
    | cons a dt =>
      have hcond : ¬(0 < P.length ∧ (P ++ a :: dt).length ≤ P.length) := by
        rw [List.length_append]
        simp
      have hd : (if 0 < P.length then (P ++ a :: dt).drop P.length else P ++ a :: dt) =
          a :: dt := by
        rw [if_pos hPpos, List.drop_left]
      have hd0 : (if (0 : Nat) < 0 then (a :: dt).drop 0 else a :: dt) = a :: dt := by
        simp
      simp only [CLI.convert, if_neg hcond, hd, hd0,
        if_neg (show ¬((0 : Nat) < 0 ∧ (a :: dt).length ≤ 0) from by simp),
        if_neg (show ¬(a :: dt).length = 0 from by simp)]
      by_cases hiJ : inputJSON = true
      · simp only [hiJ, if_true]
      · simp only [if_neg hiJ]
        exact encodeWriteReport_writes_eq _ _ _ _ _ _ _ _ _

theorem auto_skip_prefix_writes {V : Type} (c : Codec V) (P D : List Nat)
    (outputPath : String) (allowTrailing : Bool) :
    (Auto.convert c (P ++ D) outputPath allowTrailing P.length).writes =
      (Auto.convert c D outputPath allowTrailing 0).writes := by
  by_cases hP0 : P = []
  · subst hP0
    simp
  · have hPpos : 0 < P.length := List.length_pos.mpr hP0
    cases D with
    | nil =>
      rw [List.append_nil]
      have hL : (Auto.convert c P outputPath allowTrailing P.length).writes = [] := by
        unfold Auto.convert
        rw [if_pos ⟨hPpos, le_refl P.length⟩]
      have hR : (Auto.convert c [] outputPath allowTrailing 0).writes = [] := by
        unfold Auto.convert
        rw [if_neg (by simp)]
        simp
      rw [hL, hR]
    | cons a dt =>
      have hcond : ¬(0 < P.length ∧ (P ++ a :: dt).length ≤ P.length) := by
        rw [List.length_append]
        simp
      have hd : (if 0 < P.length then (P ++ a :: dt).drop P.length else P ++ a :: dt) =
          a :: dt := by
        rw [if_pos hPpos, List.drop_left]
      have hd0 : (if (0 : Nat) < 0 then (a :: dt).drop 0 else a :: dt) = a :: dt := by
        simp
      simp only [Auto.convert, if_neg hcond, hd, hd0,
        if_neg (show ¬((0 : Nat) < 0 ∧ (a :: dt).length ≤ 0) from by simp),
        if_neg (show ¬(a :: dt).length = 0 from by simp)]

theorem cli_skip_too_large {V : Type} (c c2 : Codec V) (data : List Nat) (K : Nat)
    (outputPath : String) (iJ oJ aT pe nul : Bool) (dk u8 ni : String)
    (hK : data.length ≤ K) :
    (CLI.convert c data outputPath iJ oJ aT K pe nul dk u8 ni).writes = [] ∧
    (CLI.convert c data outputPath iJ oJ aT K pe nul dk u8 ni).err.isSome = true ∧
    CLI.convert c data outputPath iJ oJ aT K pe nul dk u8 ni =
      CLI.convert c2 data outputPath iJ oJ aT K pe nul dk u8 ni := by
  by_cases h0 : 0 < K
  · have hc : 0 < K ∧ data.length ≤ K := ⟨h0, hK⟩
    unfold CLI.convert
    rw [if_pos hc, if_pos hc]
    exact ⟨rfl, rfl, rfl⟩
  · have hK0 : K = 0 := by omega
    subst hK0
    have hdata : data = [] := List.length_eq_zero.mp (by omega)
    subst hdata
    refine ⟨?_, ?_, ?_⟩ <;> simp [CLI.convert]

theorem auto_skip_too_large {V : Type} (c c2 : Codec V) (data : List Nat) (K : Nat)
    (outputPath : String) (aT : Bool) (hK : data.length ≤ K) :
    (Auto.convert c data outputPath aT K).writes = [] ∧
    (Auto.convert c data outputPath aT K).err.isSome = true ∧
    Auto.convert c data outputPath aT K = Auto.convert c2 data outputPath aT K := by
  by_cases h0 : 0 < K
  · have hc : 0 < K ∧ data.length ≤ K := ⟨h0, hK⟩
    unfold Auto.convert
    rw [if_pos hc, if_pos hc]
    exact ⟨rfl, rfl, rfl⟩
  · have hK0 : K = 0 := by omega
    subst hK0
    have hdata : data = [] := List.length_eq_zero.mp (by omega)
    subst hdata
    refine ⟨?_, ?_, ?_⟩ <;> simp [Auto.convert]

/-- C5: skip-offset property, for both the bonbon converter and the
auto-detecting converter.  Prefixing a document with K arbitrary bytes and
skipping K yields output bytes identical to converting the unprefixed
document with no skip; and a skip of at least the input length fails before
any decode is attempted: nothing is written, an error is returned, and the
outcome does not depend on the codec at all. -/
theorem skip_offset_property {V : Type} (c c2 : Codec V) (P D data : List Nat)
    (K : Nat) (outputPath : String)
    (inputJSON outputJSON allowTrailing printEndOffset allowNUL : Bool)
    (dupKeyMode utf8Mode nanInfMode : String)
    (hP : P.length = K) :
    ((CLI.convert c (P ++ D) outputPath inputJSON outputJSON allowTrailing K
        printEndOffset allowNUL dupKeyMode utf8Mode nanInfMode).writes =
      (CLI.convert c D outputPath inputJSON outputJSON allowTrailing 0
        printEndOffset allowNUL dupKeyMode utf8Mode nanInfMode).writes) ∧
    ((Auto.convert c (P ++ D) outputPath allowTrailing K).writes =
      (Auto.convert c D outputPath allowTrailing 0).writes) ∧
    (data.length ≤ K →
      (CLI.convert c data outputPath inputJSON outputJSON allowTrailing K
          printEndOffset allowNUL dupKeyMode utf8Mode nanInfMode).writes = [] ∧
      (CLI.convert c data outputPath inputJSON outputJSON allowTrailing K
          printEndOffset allowNUL dupKeyMode utf8Mode nanInfMode).err.isSome = true ∧
      CLI.convert c data outputPath inputJSON outputJSON allowTrailing K
          printEndOffset allowNUL dupKeyMode utf8Mode nanInfMode =
        CLI.convert c2 data outputPath inputJSON outputJSON allowTrailing K
          printEndOffset allowNUL dupKeyMode utf8Mode nanInfMode ∧
      (Auto.convert c data outputPath allowTrailing K).writes = [] ∧
      (Auto.convert c data outputPath allowTrailing K).err.isSome = true ∧
      Auto.convert c data outputPath allowTrailing K =
        Auto.convert c2 data outputPath allowTrailing K) := by
  subst hP
  refine ⟨cli_skip_prefix_writes c P D outputPath inputJSON outputJSON allowTrailing
    printEndOffset allowNUL dupKeyMode utf8Mode nanInfMode,
    auto_skip_prefix_writes c P D outputPath allowTrailing, fun hK => ?_⟩
  obtain ⟨a1, a2, a3⟩ := cli_skip_too_large c c2 data P.length outputPath inputJSON
    outputJSON allowTrailing printEndOffset allowNUL dupKeyMode utf8Mode nanInfMode hK
  obtain ⟨b1, b2, b3⟩ := auto_skip_too_large c c2 data P.length outputPath
    allowTrailing hK
  exact ⟨a1, a2, a3, b1, b2, b3⟩

/-- Witness for C5 at a concrete prefix, document and skip count. -/
theorem skip_offset_property_witness :
    ([7, 7] : List Nat).length = 2 ∧
      (CLI.convert oneByteCodec ([7, 7] ++ [5]) "out" false false false 2 false false
          "" "" "").writes =
        (CLI.convert oneByteCodec [5] "out" false false false 0 false false
          "" "" "").writes :=
  ⟨rfl, (skip_offset_property oneByteCodec oneByteCodec [7, 7] [5] [1] 2 "out" false
    false false false false "" "" "" rfl).1⟩

/-- C6 counterexample: no input-independent constant C makes the first C
bytes determine the classification: for every C, the all-whitespace buffer of
length C and that buffer followed by the 0x99 array-start byte agree on their
first C bytes yet are classified differently by detectJSON. -/
theorem detect_no_constant_window :
    ¬ ∃ C : Nat, ∀ b₁ b₂ : List Nat,
        b₁.take C = b₂.take C → detectJSON b₁ = detectJSON b₂ := by
  rintro ⟨C, hC⟩
  have hws : ∀ b ∈ List.replicate C 32, isWhitespace b = true := by
    intro b hb
    rw [List.eq_of_mem_replicate hb]
    rfl
  have h1 : detectJSON (List.replicate C 32 ++ [153]) = detectJSON [153] :=
    detectJSON_ws_prepend (List.replicate C 32) [153] hws
  have h2 : detectJSON (List.replicate C 32) = true := by
    have h3 : detectJSON (List.replicate C 32 ++ []) = detectJSON [] :=
      detectJSON_ws_prepend (List.replicate C 32) [] hws
    rw [List.append_nil] at h3
    rw [h3]
    rfl
  have heq := hC (List.replicate C 32 ++ [153]) (List.replicate C 32) ?_
  · rw [h1, h2] at heq
    exact absurd heq (by decide)
  · rw [List.take_left' (by simp), List.take_of_length_le (by simp)]

/-- C6 amended: the detector's lookahead is bounded once whitespace runs are
factored out: the classification is determined by the first four bytes after
the leading whitespace together with the first byte after the next whitespace
run; no input-independent byte-count constant exists because those whitespace
runs may be arbitrarily long. -/
theorem detect_bounded_window_amended (d₁ d₂ : List Nat)
    (h1 : (d₁.dropWhile isWhitespace).take 4 = (d₂.dropWhile isWhitespace).take 4)
    (h2 : ((d₁.dropWhile isWhitespace).tail.dropWhile isWhitespace).take 1 =
        ((d₂.dropWhile isWhitespace).tail.dropWhile isWhitespace).take 1) :
    detectJSON d₁ = detectJSON d₂ := by
  rw [detectJSON_eq_stripped, detectJSON_eq_stripped]
  generalize hg1 : d₁.dropWhile isWhitespace = s₁ at h1 h2 ⊢
  generalize hg2 : d₂.dropWhile isWhitespace = s₂ at h1 h2 ⊢
  rcases s₁ with _ | ⟨a₁, t₁⟩ <;> rcases s₂ with _ | ⟨a₂, t₂⟩
  · rfl
  · simp at h1
  · simp at h1
  · simp only [List.tail_cons] at h2
    simp at h1
    obtain ⟨ha, ht⟩ := h1
    subst ha
    exact detectStripped_window a₁ t₁ t₂ ht h2

/-- Witness for the amended C6 at two concrete buffers agreeing on the
window. -/
theorem detect_bounded_window_amended_witness :
    (([9, 116, 114, 117, 101] : List Nat).dropWhile isWhitespace).take 4 =
        (([116, 114, 117, 101, 44] : List Nat).dropWhile isWhitespace).take 4 ∧
      detectJSON [9, 116, 114, 117, 101] = detectJSON [116, 114, 117, 101, 44] :=
  ⟨by decide, detect_bounded_window_amended [9, 116, 114, 117, 101]
    [116, 114, 117, 101, 44] (by decide) (by decide)⟩

/-- C7 counterexample: with the stdout token as destination and JSON output,
writeOutput sends the bytes to standard output without the trailing newline
the claim requires. -/
theorem stdout_token_no_newline :
    (writeOutput [49] "-" true).dest = Dest.stdout ∧
      (writeOutput [49] "-" true).bytes = [49] ∧
      (writeOutput [49] "-" true).bytes ≠ [49] ++ [10] := by
  refine ⟨?_, ?_, ?_⟩ <;> decide

/-- C7 amended: the trailing display newline is appended exactly when the
output path is the empty default token and the output form is JSON; with any
non-empty path — including the explicit stdout token — the bytes are written
unmodified, and a non-empty path other than the stdout token writes to the
named file. -/
theorem writeOutput_newline_policy (data : List Nat) (outputPath : String)
    (isJSON : Bool) (hpath : outputPath ≠ "") :
    (writeOutput data outputPath isJSON).bytes = data ∧
      (writeOutput data "" true).bytes = data ++ [10] ∧
      (writeOutput data "" false).bytes = data ∧
      (outputPath ≠ "-" → (writeOutput data outputPath isJSON).dest = .file outputPath) ∧
      (writeOutput data "-" isJSON).dest = .stdout := by
  refine ⟨?_, ?_, ?_, ?_, ?_⟩
  · unfold writeOutput
    simp [hpath]
  · unfold writeOutput
    simp
  · unfold writeOutput
    simp
  · intro h2
    unfold writeOutput
    simp [hpath, h2]
  · unfold writeOutput
    simp

/-- Witness for the amended C7 at a concrete file path. -/
theorem writeOutput_newline_policy_witness :
    ("out" : String) ≠ "" ∧ (writeOutput [49] "out" true).bytes = [49] :=
  ⟨by decide, (writeOutput_newline_policy [49] "out" true (by decide)).1⟩

/-! ### Grammar lemmas for detector exactness -/

theorem isDigit_cont (c : Nat) (h : isDigit c = true) :
    isJSONNumberOrDocContinuation c = true := by
  have h1 : 48 ≤ c ∧ c ≤ 57 := by
    simpa [isDigit, Bool.and_eq_true, decide_eq_true_eq] using h
  obtain ⟨hl, hr⟩ := h1
  interval_cases c <;> rfl

theorem isDigit_validStart (c : Nat) (h : isDigit c = true) :
    isValidJSONStart c = true := by
  have h1 : 48 ≤ c ∧ c ≤ 57 := by
    simpa [isDigit, Bool.and_eq_true, decide_eq_true_eq] using h
  obtain ⟨hl, hr⟩ := h1
  interval_cases c <;> rfl

theorem ws_cont (c : Nat) (h : isWhitespace c = true) :
    isJSONNumberOrDocContinuation c = true := by
  have h1 : ((c = 32 ∨ c = 9) ∨ c = 10) ∨ c = 13 := by
    simpa [isWhitespace, Bool.or_eq_true, beq_iff_eq] using h
  rcases h1 with ((h1 | h1) | h1) | h1 <;> subst h1 <;> rfl

theorem isJSONNumber_head (l : List Nat) (h : isJSONNumber l = true) :
    ∃ b t, l = b :: t ∧ (b = 45 ∨ isDigit b = true) := by
  cases l with
  | nil => simp [isJSONNumber, parseInt] at h
  | cons b t =>
    refine ⟨b, t, rfl, ?_⟩
    by_cases hb : b = 45
    · exact Or.inl hb
    · right
      have hbeq : (b == 45) = false := by
        simp [hb]
      by_cases h48 : b = 48
      · subst h48
        decide
      · by_cases h49 : 49 ≤ b ∧ b ≤ 57
        · simp only [isDigit, Bool.and_eq_true, decide_eq_true_eq]
          omega
        · exfalso
          have h48eq : (b == 48) = false := by simp [h48]
          simp [isJSONNumber, parseInt, hbeq, h48eq, h49] at h

theorem isJSONNumber_minus_next (t : List Nat) (h : isJSONNumber (45 :: t) = true) :
    ∃ d t2, t = d :: t2 ∧ isDigit d = true := by
  cases t with
  | nil => simp [isJSONNumber, parseInt] at h
  | cons d t2 =>
    refine ⟨d, t2, rfl, ?_⟩
    by_cases h48 : d = 48
    · subst h48
      decide
    · by_cases h49 : 49 ≤ d ∧ d ≤ 57
      · simp only [isDigit, Bool.and_eq_true, decide_eq_true_eq]
        omega
      · exfalso
        have h48eq : (d == 48) = false := by simp [h48]
        simp [isJSONNumber, parseInt, h48eq, h49] at h

theorem isJSONNumber_digit_next (b c : Nat) (t : List Nat)
    (hb : isDigit b = true)
    (h : isJSONNumber (b :: c :: t) = true) :
    isJSONNumberOrDocContinuation c = true := by
  by_cases hc : isDigit c = true
  · exact isDigit_cont c hc
  · by_cases hc46 : c = 46
    · subst hc46
      rfl
    · by_cases hc101 : c = 101
      · subst hc101
        rfl
      · by_cases hc69 : c = 69
        · subst hc69
          rfl
        · exfalso
          have hbd : 48 ≤ b ∧ b ≤ 57 := by
            simpa [isDigit, Bool.and_eq_true, decide_eq_true_eq] using hb
          have hb45 : (b == 45) = false := by
            simp only [beq_eq_false_iff_ne, ne_eq]
            omega
          have hcf : isDigit c = false := by
            rwa [Bool.not_eq_true] at hc
          have hc46eq : (c == 46) = false := by simp [hc46]
          have hcexp : (c == 101 || c == 69) = false := by
            simp [hc101, hc69]
          have hdw : (c :: t).dropWhile isDigit = c :: t := by
            rw [List.dropWhile_cons, hcf]
            rfl
          by_cases hb48 : b = 48
          · subst hb48
            simp [isJSONNumber, parseInt, parseFrac, parseExp, hc46eq, hcexp, hcf] at h
          · have hb48eq : (b == 48) = false := by simp [hb48]
            have hb49 : 49 ≤ b ∧ b ≤ 57 := ⟨by omega, hbd.2⟩
            simp [isJSONNumber, parseInt, parseFrac, parseExp, hb45, hb48eq, hb49,
              hdw, hc46eq, hcexp] at h

theorem JVal_head (v : List Nat) (h : JVal v) :
    ∃ b t, v = b :: t ∧ isValidJSONStart b = true ∧ isWhitespace b = false := by
  cases h with
  | jnull => exact ⟨110, _, rfl, by decide, by decide⟩
  | jtrue => exact ⟨116, _, rfl, by decide, by decide⟩
  | jfalse => exact ⟨102, _, rfl, by decide, by decide⟩
  | jstr s => exact ⟨34, _, rfl, by decide, by decide⟩
  | jnum l hl =>
    obtain ⟨b, t, rfl, hb⟩ := isJSONNumber_head v hl
    rcases hb with hb | hb
    · subst hb
      exact ⟨45, t, rfl, by decide, by decide⟩
    · refine ⟨b, t, rfl, isDigit_validStart b hb, ?_⟩
      have h1 : 48 ≤ b ∧ b ≤ 57 := by
        simpa [isDigit, Bool.and_eq_true, decide_eq_true_eq] using hb
      simp only [isWhitespace, Bool.or_eq_false_iff, beq_eq_false_iff_ne, ne_eq]
      omega
  | jarrNil w hw => exact ⟨91, _, rfl, by decide, by decide⟩
  | jarrCons l hl => exact ⟨91, _, rfl, by decide, by decide⟩
  | jobjNil w hw => exact ⟨123, _, rfl, by decide, by decide⟩
  | jobjCons l hl => exact ⟨123, _, rfl, by decide, by decide⟩

theorem JElems_head_valid (l : List Nat) (h : JElems l) (suffix : List Nat) :
    ∃ b t, (l ++ suffix).dropWhile isWhitespace = b :: t ∧
      isValidJSONStart b = true := by
  cases h with
  | single w1 v w2 hw1 hv hw2 =>
    obtain ⟨b, tv, rfl, hstart, hws⟩ := JVal_head v hv
    refine ⟨b, tv ++ (w2 ++ suffix), ?_, hstart⟩
    simp only [List.append_assoc, List.cons_append]
    rw [dropWhile_ws_append w1 _ hw1, dropWhile_cons_of_neg b _ hws]
  | cons w1 v w2 rest hw1 hv hw2 hrest =>
    obtain ⟨b, tv, rfl, hstart, hws⟩ := JVal_head v hv
    refine ⟨b, tv ++ (w2 ++ (44 :: rest ++ suffix)), ?_, hstart⟩
    simp only [List.append_assoc, List.cons_append]
    rw [dropWhile_ws_append w1 _ hw1, dropWhile_cons_of_neg b _ hws]

theorem JMembers_head_quote (l : List Nat) (h : JMembers l) (suffix : List Nat) :
    ∃ t, (l ++ suffix).dropWhile isWhitespace = 34 :: t := by
  cases h with
  | single w1 s w2 el hw1 hw2 hel =>
    refine ⟨s ++ [34] ++ (w2 ++ (58 :: el ++ suffix)), ?_⟩
    simp only [List.append_assoc, List.cons_append]
    rw [dropWhile_ws_append w1 _ hw1, dropWhile_cons_of_neg 34 _ (by decide)]
  | cons w1 s w2 el rest hw1 hw2 hel hrest =>
    refine ⟨s ++ [34] ++ (w2 ++ (58 :: el ++ (44 :: rest ++ suffix))), ?_⟩
    simp only [List.append_assoc, List.cons_append]
    rw [dropWhile_ws_append w1 _ hw1, dropWhile_cons_of_neg 34 _ (by decide)]

theorem loneDigitDoc_ws_single (w1 : List Nat) (b : Nat) (hw1 : WSl w1)
    (hbws : isWhitespace b = false) :
    loneDigitDoc (w1 ++ [b]) = isDigit b := by
  unfold loneDigitDoc
  rw [dropWhile_ws_append w1 _ hw1, dropWhile_cons_of_neg b _ hbws]

theorem detectStripped_cons_ge126 (b : Nat) (rest : List Nat) (h : 126 ≤ b)
    (h153 : b ≠ 153) (h154 : b ≠ 154) :
    detectStripped (b :: rest) = false := by
  have e1 : (b == 153 || b == 154) = false := by
    simp only [Bool.or_eq_false_iff, beq_eq_false_iff_ne, ne_eq]
    exact ⟨h153, h154⟩
  have e2 : (b == 102) = false := by
    simp only [beq_eq_false_iff_ne, ne_eq]
    omega
  have e3 : isValidJSONStart b = false := by
    simp only [isValidJSONStart, Bool.or_eq_false_iff, beq_eq_false_iff_ne, ne_eq]
    omega
  simp [detectStripped, e1, e2, e3]

/-- Text-side exactness of the detector over the modelled JSON grammar: every
well-formed document other than a lone digit is classified as text form. -/
theorem JDoc_detect_true (d : List Nat) (hd : JDoc d)
    (hld : loneDigitDoc d = false) : detectJSON d = true := by
  obtain ⟨w1, v, w2, hw1, hv, hw2, rfl⟩ := hd
  obtain ⟨b, tv, rfl, hstart, hbws⟩ := JVal_head v hv
  rw [detectJSON_eq_stripped]
  simp only [List.append_assoc, List.cons_append]
  rw [dropWhile_ws_append w1 _ hw1, dropWhile_cons_of_neg b _ hbws]
  cases hv with
  | jnull => rfl
  | jtrue => rfl
  | jfalse => rfl
  | jstr s =>
    cases s with
    | nil => rfl
    | cons a s2 => rfl
  | jnum l hl =>
    rcases isJSONNumber_head _ hl with ⟨b2, t2, heq, hb2⟩
    injection heq with hb2eq ht2eq
    subst hb2eq
    subst ht2eq
    rcases hb2 with hb45 | hbd
    · subst hb45
      obtain ⟨dd, t3, rfl, hdd⟩ := isJSONNumber_minus_next tv hl
      exact hdd
    · have hbd2 : 48 ≤ b ∧ b ≤ 57 := by
        simpa [isDigit, Bool.and_eq_true, decide_eq_true_eq] using hbd
      have key : detectStripped (b :: (tv ++ w2)) = headIsCont (tv ++ w2) := by
        obtain ⟨h48, h57⟩ := hbd2
        interval_cases b <;> rfl
      rw [key]
      cases tv with
      | nil =>
        cases w2 with
        | nil =>
          exfalso
          simp only [List.append_nil] at hld
          rw [loneDigitDoc_ws_single w1 b hw1 hbws] at hld
          rw [hld] at hbd
          exact absurd hbd (by decide)
        | cons cw w2b =>
          exact ws_cont cw (hw2 cw (by simp))
      | cons c t3 =>
        exact isJSONNumber_digit_next b c t3 hbd hl
  | jarrNil w hw =>
    show looksLikeJSONArrayL ((w ++ [93]) ++ w2) = true
    unfold looksLikeJSONArrayL
    have hs : ((w ++ [93]) ++ w2).dropWhile isWhitespace = 93 :: w2 := by
      simp only [List.append_assoc, List.cons_append, List.nil_append]
      rw [dropWhile_ws_append w _ hw, dropWhile_cons_of_neg 93 _ (by decide)]
    rw [hs]
    rfl
  | jarrCons l hl =>
    show looksLikeJSONArrayL ((l ++ [93]) ++ w2) = true
    unfold looksLikeJSONArrayL
    obtain ⟨b2, t2, heq, hv2⟩ := JElems_head_valid l hl (93 :: w2)
    have hre : (l ++ [93]) ++ w2 = l ++ (93 :: w2) := by simp
    rw [hre, heq]
    simp [hv2]
  | jobjNil w hw =>
    show looksLikeJSONObjectL ((w ++ [125]) ++ w2) = true
    unfold looksLikeJSONObjectL
    have hs : ((w ++ [125]) ++ w2).dropWhile isWhitespace = 125 :: w2 := by
      simp only [List.append_assoc, List.cons_append, List.nil_append]
      rw [dropWhile_ws_append w _ hw, dropWhile_cons_of_neg 125 _ (by decide)]
    rw [hs]
    rfl
  | jobjCons l hl =>
    show looksLikeJSONObjectL ((l ++ [125]) ++ w2) = true
    unfold looksLikeJSONObjectL
    obtain ⟨t2, heq⟩ := JMembers_head_quote l hl (125 :: w2)
    have hre : (l ++ [125]) ++ w2 = l ++ (125 :: w2) := by simp
    rw [hre, heq]
    rfl

/-- Binary-side exactness of the detector over the modelled BONJSON grammar:
every well-formed binary document outside the explicit misdetection set is
classified as binary form. -/
theorem BonDoc_detect_false (d : List Nat) (hd : BonDoc d)
    (hmis : bonMisdetected d = false) : detectJSON d = false := by
  cases hd with
  | smallInt b hb =>
    have hbws : isWhitespace b = false := by
      simpa [bonMisdetected] using hmis
    rw [detectJSON_cons_of_not_ws b [] hbws]
    have hall : ∀ x < 101, isWhitespace x = false → detectStripped [x] = false := by
      decide
    exact hall b (by omega) hbws
  | negSmallInt b h1 h2 =>
    have hbws : isWhitespace b = false := by
      simp only [isWhitespace, Bool.or_eq_false_iff, beq_eq_false_iff_ne, ne_eq]
      omega
    rw [detectJSON_cons_of_not_ws b [] hbws]
    exact detectStripped_cons_ge126 b [] (by omega) (by omega) (by omega)
  | bnull => decide
  | bfalse => decide
  | btrue => decide
  | shortStr n s hn hs =>
    have hbws : isWhitespace (128 + n) = false := by
      simp only [isWhitespace, Bool.or_eq_false_iff, beq_eq_false_iff_ne, ne_eq]
      omega
    rw [detectJSON_cons_of_not_ws _ _ hbws]
    exact detectStripped_cons_ge126 (128 + n) s (by omega) (by omega) (by omega)
  | uint5 s hs =>
    rcases s with _ | ⟨s0, s1⟩
    · simp at hs
    · have hsw : startsWith3 (s0 :: s1) 114 117 101 = false := by
        simpa [bonMisdetected] using hmis
      rw [detectJSON_cons_of_not_ws 116 _ (by decide)]
      exact hsw
  | sint4 s hs =>
    rcases s with _ | ⟨s0, s1⟩
    · simp at hs
    · have hlk : looksLikeJSONObjectL (s0 :: s1) = false := by
        simpa [bonMisdetected] using hmis
      rw [detectJSON_cons_of_not_ws 123 _ (by decide)]
      exact hlk
  | float64 s hs =>
    rw [detectJSON_cons_of_not_ws 108 _ (by decide)]
    rfl
  | arr s =>
    show detectJSON (153 :: (s ++ [155])) = false
    rw [detectJSON_cons_of_not_ws 153 _ (by decide)]
    rfl
  | obj s =>
    show detectJSON (154 :: (s ++ [155])) = false
    rw [detectJSON_cons_of_not_ws 154 _ (by decide)]
    rfl

/-- C2 counterexample: "5" (byte 53) is a well-formed text-form document that
the detector classifies as binary form, and the six-byte binary document
0x74 'r' 'u' 'e' 0x00 0x00 (a 5-byte unsigned integer) is a well-formed
binary-form document that the detector classifies as text form: detection is
not exact on all well-formed documents of either form. -/
theorem detect_wellformed_counterexample :
    JDoc [53] ∧ detectJSON [53] = false ∧
      BonDoc [116, 114, 117, 101, 0, 0] ∧
      detectJSON [116, 114, 117, 101, 0, 0] = true := by
  refine ⟨⟨[], [53], [], ?_, JVal.jnum [53] (by decide), ?_, rfl⟩,
    by decide, BonDoc.uint5 [114, 117, 101, 0, 0] rfl, by decide⟩
  · intro b hb
    exact absurd hb (List.not_mem_nil b)
  · intro b hb
    exact absurd hb (List.not_mem_nil b)

/-- C2 amended: over the modelled grammars, the detector classifies every
well-formed text-form document as TextForm unless it is a single digit after
optional whitespace, and classifies every well-formed binary-form document as
BinaryForm unless it is a single whitespace-valued small integer, a 5-byte
unsigned integer whose payload begins with the bytes of "rue", or a 4-byte
signed integer whose payload resembles a JSON object opening. -/
theorem detect_wellformed_amended :
    (∀ d : List Nat, JDoc d → loneDigitDoc d = false → detectJSON d = true) ∧
    (∀ d : List Nat, BonDoc d → bonMisdetected d = false → detectJSON d = false) :=
  ⟨JDoc_detect_true, BonDoc_detect_false⟩

/-- Witness for the amended C2: both sides applied at concrete documents, the
array document "[12]" and the empty short string 0x80. -/
theorem detect_wellformed_amended_witness :
    detectJSON [91, 49, 50, 93] = true ∧ detectJSON [128] = false :=
  ⟨detect_wellformed_amended.1 [91, 49, 50, 93]
      ⟨[], [91, 49, 50, 93], [], fun b hb => absurd hb (List.not_mem_nil b),
        JVal.jarrCons [49, 50]
          (JElems.single [] [49, 50] [] (fun b hb => absurd hb (List.not_mem_nil b))
            (JVal.jnum [49, 50] (by decide))
            (fun b hb => absurd hb (List.not_mem_nil b))),
        fun b hb => absurd hb (List.not_mem_nil b), rfl⟩
      (by decide),
    detect_wellformed_amended.2 [128] (BonDoc.shortStr 0 [] (by decide) rfl)
      (by decide)⟩

end Bonbon
